import Mathlib

/-!
Verification development for the snapchat export converter
(`src/index.py`).  The Python functions that carry the decision logic of
the pipeline are shallowly embedded as Lean definitions:

* dates: Python `datetime` values are represented by a single `Nat` key,
  the mixed-radix encoding `((((y*13+m)*32+d)*24+hh)*60+mi)*60+ss`.  On
  the in-range field tuples produced by the validating parsers this
  encoding is strictly monotone for `datetime`'s lexicographic order and
  injective, so comparisons, `min` and equality of datetimes coincide
  with comparisons, `Nat.min` and equality of keys.  Filesystem
  timestamps are likewise modelled as `Nat` with the same monotone
  convention.
* `datetime.strptime` with the fixed patterns `%Y-%m-%d`,
  `%Y:%m:%d %H:%M:%S` and `%Y-%m-%d %H:%M:%S` is embedded by
  deterministic character parsers that transcribe CPython's `_strptime`
  field regexes (`%Y` ↦ exactly four digits, `%m` ↦ `1[0-2]|0[1-9]|[1-9]`,
  `%d` ↦ `3[01]|[12]\d|0[1-9]|[1-9]`, `%H` ↦ `2[0-3]|[0-1]\d|\d`,
  `%M` ↦ `[0-5]\d|\d`, `%S` ↦ `6[0-1]|[0-5]\d|\d`, a space ↦ one or more
  whitespace characters), followed by the `datetime` constructor's range
  validation and the "unconverted data remains" full-consumption check.
  Since every field is followed by a non-digit delimiter (or the end of
  the string), the regex engine's preference for the earlier, longer
  alternatives never needs to backtrack into a shorter alternative that
  could succeed, so the deterministic cascade below computes exactly the
  regex result.
* EXIF containers (`piexif` dicts of dicts) are structures of four
  per-IFD partial maps `Nat → Option String`; `piexif.load` always
  populates all IFD keys, so the Python `ifd in exif_dict` tests are
  identically true and the per-tag dictionary updates are rendered
  pointwise.  `bytes.decode` failure and `strptime` failure are both
  "this tag yields no date" in the code and are merged into parse
  failure here.
-/

/-! ### Characters and digits -/

def digitVal (c : Char) : Nat := c.toNat - 48

def digCh (k : Nat) : Char := Char.ofNat (48 + k)

/-- Zero-padded two-digit print of `n % 100`, as `"%02d"`. -/
def pad2Chars (n : Nat) : List Char := [digCh (n / 10 % 10), digCh (n % 10)]

/-- Zero-padded four-digit print of `n % 10000`, as `"%04d"`. -/
def pad4Chars (n : Nat) : List Char :=
  [digCh (n / 1000 % 10), digCh (n / 100 % 10), digCh (n / 10 % 10), digCh (n % 10)]

/-! ### Calendar arithmetic used by the `datetime` constructor -/

def isLeapYear (y : Nat) : Bool := y % 4 == 0 && (y % 100 != 0 || y % 400 == 0)

def daysInMonth (y m : Nat) : Nat :=
  if m = 2 then (if isLeapYear y then 29 else 28)
  else if m = 4 ∨ m = 6 ∨ m = 9 ∨ m = 11 then 30
  else 31

/-- Mixed-radix key encoding a datetime; strictly monotone for the
lexicographic order on in-range field tuples. -/
def dtKey (y m d hh mi ss : Nat) : Nat :=
  ((((y * 13 + m) * 32 + d) * 24 + hh) * 60 + mi) * 60 + ss

/-- The `datetime(...)` constructor: validates the ranges CPython checks
(`MINYEAR ≤ year ≤ MAXYEAR`, valid day of month, `second ≤ 59`; the other
bounds are already guaranteed by the field regexes but are re-checked the
way the constructor does). -/
def mkDT (y m d hh mi ss : Nat) : Option Nat :=
  if 1 ≤ y ∧ y ≤ 9999 ∧ 1 ≤ m ∧ m ≤ 12 ∧ 1 ≤ d ∧ d ≤ daysInMonth y m
      ∧ hh ≤ 23 ∧ mi ≤ 59 ∧ ss ≤ 59 then
    some (dtKey y m d hh mi ss)
  else none

/-! ### `_strptime` field parsing -/

/-- `%Y`: exactly four digits. -/
def parse4Digits : List Char → Option (Nat × List Char)
  | c1 :: c2 :: c3 :: c4 :: r =>
    if c1.isDigit ∧ c2.isDigit ∧ c3.isDigit ∧ c4.isDigit then
      some (((digitVal c1 * 10 + digitVal c2) * 10 + digitVal c3) * 10 + digitVal c4, r)
    else none
  | _ => none

/-- `%m`: `1[0-2]|0[1-9]|[1-9]`, alternatives tried in this order. -/
def parseMonth2 : List Char → Option (Nat × List Char)
  | c1 :: c2 :: r =>
    if c1.isDigit ∧ c2.isDigit ∧ digitVal c1 = 1 ∧ digitVal c2 ≤ 2 then
      some (10 + digitVal c2, r)
    else if c1.isDigit ∧ c2.isDigit ∧ digitVal c1 = 0 ∧ 1 ≤ digitVal c2 then
      some (digitVal c2, r)
    else if c1.isDigit ∧ 1 ≤ digitVal c1 then
      some (digitVal c1, c2 :: r)
    else none
  | [c1] => if c1.isDigit ∧ 1 ≤ digitVal c1 then some (digitVal c1, []) else none
  | [] => none

/-- `%d`: `3[01]|[12]\d|0[1-9]|[1-9]`. -/
def parseDay2 : List Char → Option (Nat × List Char)
  | c1 :: c2 :: r =>
    if c1.isDigit ∧ c2.isDigit ∧ digitVal c1 = 3 ∧ digitVal c2 ≤ 1 then
      some (30 + digitVal c2, r)
    else if c1.isDigit ∧ c2.isDigit ∧ (digitVal c1 = 1 ∨ digitVal c1 = 2) then
      some (digitVal c1 * 10 + digitVal c2, r)
    else if c1.isDigit ∧ c2.isDigit ∧ digitVal c1 = 0 ∧ 1 ≤ digitVal c2 then
      some (digitVal c2, r)
    else if c1.isDigit ∧ 1 ≤ digitVal c1 then
      some (digitVal c1, c2 :: r)
    else none
  | [c1] => if c1.isDigit ∧ 1 ≤ digitVal c1 then some (digitVal c1, []) else none
  | [] => none

/-- `%H`: `2[0-3]|[0-1]\d|\d`. -/
def parseHour2 : List Char → Option (Nat × List Char)
  | c1 :: c2 :: r =>
    if c1.isDigit ∧ c2.isDigit ∧ digitVal c1 = 2 ∧ digitVal c2 ≤ 3 then
      some (20 + digitVal c2, r)
    else if c1.isDigit ∧ c2.isDigit ∧ digitVal c1 ≤ 1 then
      some (digitVal c1 * 10 + digitVal c2, r)
    else if c1.isDigit then
      some (digitVal c1, c2 :: r)
    else none
  | [c1] => if c1.isDigit then some (digitVal c1, []) else none
  | [] => none

/-- `%M`: `[0-5]\d|\d`. -/
def parseMinute2 : List Char → Option (Nat × List Char)
  | c1 :: c2 :: r =>
    if c1.isDigit ∧ c2.isDigit ∧ digitVal c1 ≤ 5 then
      some (digitVal c1 * 10 + digitVal c2, r)
    else if c1.isDigit then
      some (digitVal c1, c2 :: r)
    else none
  | [c1] => if c1.isDigit then some (digitVal c1, []) else none
  | [] => none

/-- `%S`: `6[0-1]|[0-5]\d|\d` (leap seconds pass the regex and are then
rejected by the `datetime` constructor). -/
def parseSecond2 : List Char → Option (Nat × List Char)
  | c1 :: c2 :: r =>
    if c1.isDigit ∧ c2.isDigit ∧ digitVal c1 = 6 ∧ digitVal c2 ≤ 1 then
      some (60 + digitVal c2, r)
    else if c1.isDigit ∧ c2.isDigit ∧ digitVal c1 ≤ 5 then
      some (digitVal c1 * 10 + digitVal c2, r)
    else if c1.isDigit then
      some (digitVal c1, c2 :: r)
    else none
  | [c1] => if c1.isDigit then some (digitVal c1, []) else none
  | [] => none

/-- A literal character of the format string. -/
def expectChar (c : Char) : List Char → Option (List Char)
  | [] => none
  | x :: r => if x = c then some r else none

/-- A space in the format string matches `\s+`. -/
def expectSpaces : List Char → Option (List Char)
  | [] => none
  | x :: r => if x.isWhitespace then some (r.dropWhile Char.isWhitespace) else none

/-- `datetime.strptime(s, "%Y-%m-%d")`: full consumption required. -/
def strptimeYmd (s : String) : Option Nat :=
  match parse4Digits s.data with
  | none => none
  | some (y, r1) =>
    match expectChar '-' r1 with
    | none => none
    | some r2 =>
      match parseMonth2 r2 with
      | none => none
      | some (m, r3) =>
        match expectChar '-' r3 with
        | none => none
        | some r4 =>
          match parseDay2 r4 with
          | none => none
          | some (d, r5) => if r5 = [] then mkDT y m d 0 0 0 else none

/-- The time-of-day tail `"%H:%M:%S"` shared by the two full patterns. -/
def strptimeHms (y m d : Nat) (r : List Char) : Option Nat :=
  match parseHour2 r with
  | none => none
  | some (hh, r1) =>
    match expectChar ':' r1 with
    | none => none
    | some r2 =>
      match parseMinute2 r2 with
      | none => none
      | some (mi, r3) =>
        match expectChar ':' r3 with
        | none => none
        | some r4 =>
          match parseSecond2 r4 with
          | none => none
          | some (ss, r5) => if r5 = [] then mkDT y m d hh mi ss else none

/-- `datetime.strptime(s, "%Y:%m:%d %H:%M:%S")` (EXIF date strings). -/
def strptimeColonFmt (s : String) : Option Nat :=
  match parse4Digits s.data with
  | none => none
  | some (y, r1) =>
    match expectChar ':' r1 with
    | none => none
    | some r2 =>
      match parseMonth2 r2 with
      | none => none
      | some (m, r3) =>
        match expectChar ':' r3 with
        | none => none
        | some r4 =>
          match parseDay2 r4 with
          | none => none
          | some (d, r5) =>
            match expectSpaces r5 with
            | none => none
            | some r6 => strptimeHms y m d r6

/-- `datetime.strptime(s, "%Y-%m-%d %H:%M:%S")` (video `creation_time`). -/
def strptimeDashFmt (s : String) : Option Nat :=
  match parse4Digits s.data with
  | none => none
  | some (y, r1) =>
    match expectChar '-' r1 with
    | none => none
    | some r2 =>
      match parseMonth2 r2 with
      | none => none
      | some (m, r3) =>
        match expectChar '-' r3 with
        | none => none
        | some r4 =>
          match parseDay2 r4 with
          | none => none
          | some (d, r5) =>
            match expectSpaces r5 with
            | none => none
            | some r6 => strptimeHms y m d r6

/-- `extract_date_from_filename` (index.py:678): `filename.split('_')[0]`
then `strptime(..., '%Y-%m-%d')`, with `ValueError` mapped to `None`. -/
def extract_date_from_filename (filename : String) : Option Nat :=
  strptimeYmd (String.mk (filename.data.takeWhile (fun c => c ≠ '_')))


/-! ### EXIF containers (`piexif` dicts) -/

/-- A loaded `piexif` dict: the four IFD tag tables (`'0th'`, `'Exif'`,
`'GPS'`, `'1st'`), each a partial map from numeric tag to its (decoded)
byte-string value.  `piexif.load` always creates all four keys, so the
Python `ifd in exif_dict` membership tests are identically true. -/
structure ExifDict where
  zeroth : Nat → Option String
  exif : Nat → Option String
  gps : Nat → Option String
  first : Nat → Option String

/-- `{'0th':{}, 'Exif':{}, 'GPS':{}, '1st':{}, 'thumbnail':None}`. -/
def emptyExif : ExifDict := ⟨fun _ => none, fun _ => none, fun _ => none, fun _ => none⟩

/-- `piexif.ExifIFD.DateTimeOriginal`. -/
def tagDateTimeOriginal : Nat := 36867
/-- `piexif.ExifIFD.DateTimeDigitized`. -/
def tagDateTimeDigitized : Nat := 36868
/-- `piexif.ImageIFD.DateTime` (0th IFD). -/
def tagDateTime : Nat := 306

/-- Python's `min` over a list, returning `none` on the empty list:
on `Nat` keys ties are equal values, so `List.min?` computes it. -/
def pyListMin (l : List Nat) : Option Nat := l.min?

/-- `get_exif_date` (index.py:164): walks
`[(Exif, DateTimeOriginal), (Exif, DateTimeDigitized), (0th, DateTime)]`,
collects every present tag whose value decodes and parses under
`'%Y:%m:%d %H:%M:%S'` (failures are skipped by the bare `except`), and
returns the oldest collected date, `None` if none. -/
def get_exif_date (exif_dict : Option ExifDict) : Option Nat :=
  match exif_dict with
  | none => none
  | some e =>
    pyListMin (([e.exif tagDateTimeOriginal, e.exif tagDateTimeDigitized,
                 e.zeroth tagDateTime].filterMap
                  (fun ov => ov.bind strptimeColonFmt)))

/-- The three date-bearing tag numbers excluded by the non-date merge
loop (index.py:230). -/
def isDateTag (t : Nat) : Bool := t == tagDateTime || t == tagDateTimeOriginal || t == tagDateTimeDigitized

/-- The `use_overlay_date` flag of `merge_exif_data` (index.py:200). -/
def useOverlayDate (main_exif overlay_exif : Option ExifDict) : Bool :=
  match get_exif_date main_exif, get_exif_date overlay_exif with
  | some m, some o => decide (o < m)
  | none, some _ => true
  | _, _ => false

/-- `merge_exif_data` (index.py:188).  `final_exif` starts as `main_exif`
(or the empty dict); when `use_overlay_date` holds, each of the three
date slots the overlay possesses overwrites the corresponding slot; then
every non-date overlay tag is copied over unconditionally.  The per-tag
dictionary updates are rendered pointwise. -/
def merge_exif_data (main_exif overlay_exif : Option ExifDict) : ExifDict :=
  let final0 := main_exif.getD emptyExif
  match overlay_exif with
  | none => final0
  | some o =>
    let u := useOverlayDate main_exif overlay_exif
    let afterDate : ExifDict :=
      if u then
        { final0 with
          zeroth := fun t =>
            if t = tagDateTime ∧ (o.zeroth t).isSome then o.zeroth t else final0.zeroth t,
          exif := fun t =>
            if (t = tagDateTimeOriginal ∨ t = tagDateTimeDigitized) ∧ (o.exif t).isSome then
              o.exif t
            else final0.exif t }
      else final0
    { zeroth := fun t =>
        if ¬isDateTag t ∧ (o.zeroth t).isSome then o.zeroth t else afterDate.zeroth t,
      exif := fun t =>
        if ¬isDateTag t ∧ (o.exif t).isSome then o.exif t else afterDate.exif t,
      gps := fun t =>
        if ¬isDateTag t ∧ (o.gps t).isSome then o.gps t else afterDate.gps t,
      first := fun t =>
        if ¬isDateTag t ∧ (o.first t).isSome then o.first t else afterDate.first t }

/-! ### Option-valued minimum helpers -/

/-- Combine two optional dates keeping the older: the "earlier of the two
when both exist, else whichever exists, else none" operation. -/
def olderOpt (a b : Option Nat) : Option Nat :=
  match a, b with
  | none, b => b
  | some x, none => some x
  | some x, some y => some (if x ≤ y then x else y)

theorem olderOpt_none_right (a : Option Nat) : olderOpt a none = a := by
  cases a <;> rfl

theorem olderOpt_eq_none_iff (a b : Option Nat) :
    olderOpt a b = none ↔ a = none ∧ b = none := by
  cases a <;> cases b <;> simp [olderOpt]

theorem olderOpt3_elim {x y z : Option Nat} {b : Nat}
    (h : olderOpt (olderOpt x y) z = some b) :
    (x = some b ∨ y = some b ∨ z = some b) ∧
      (∀ v, x = some v → b ≤ v) ∧ (∀ v, y = some v → b ≤ v) ∧
      (∀ v, z = some v → b ≤ v) := by
  rcases x with _ | x <;> rcases y with _ | y <;> rcases z with _ | z <;>
    simp_all only [olderOpt, Option.some.injEq, reduceCtorEq, false_or, or_false,
      false_implies, forall_eq', true_and, and_true, implies_true] <;>
    (try split_ifs at h) <;> omega

theorem olderOpt3_intro {x y z : Option Nat} {b : Nat}
    (hmem : x = some b ∨ y = some b ∨ z = some b)
    (hx : ∀ v, x = some v → b ≤ v) (hy : ∀ v, y = some v → b ≤ v)
    (hz : ∀ v, z = some v → b ≤ v) :
    olderOpt (olderOpt x y) z = some b := by
  rcases x with _ | x <;> rcases y with _ | y <;> rcases z with _ | z <;>
    simp_all only [olderOpt, Option.some.injEq, reduceCtorEq, false_or, or_false,
      false_implies, forall_eq', true_and, and_true, implies_true] <;>
    (try split_ifs) <;> omega

/-- `get_exif_date` on a present dict is the `olderOpt`-fold of the three
per-slot parse results. -/
theorem get_exif_date_eq (e : ExifDict) :
    get_exif_date (some e) =
      olderOpt (olderOpt ((e.exif tagDateTimeOriginal).bind strptimeColonFmt)
          ((e.exif tagDateTimeDigitized).bind strptimeColonFmt))
        ((e.zeroth tagDateTime).bind strptimeColonFmt) := by
  unfold get_exif_date pyListMin
  cases h1 : (e.exif tagDateTimeOriginal).bind strptimeColonFmt <;>
    cases h2 : (e.exif tagDateTimeDigitized).bind strptimeColonFmt <;>
      cases h3 : (e.zeroth tagDateTime).bind strptimeColonFmt <;>
        simp [List.filterMap_cons, h1, h2, h3, List.min?, List.foldl,
          olderOpt, Nat.min_def]

/-! ### The merged dict's date slots -/

theorem merge_slot_dto (m : Option ExifDict) (o : ExifDict) :
    (merge_exif_data m (some o)).exif tagDateTimeOriginal =
      if useOverlayDate m (some o) ∧ (o.exif tagDateTimeOriginal).isSome then
        o.exif tagDateTimeOriginal
      else (m.getD emptyExif).exif tagDateTimeOriginal := by
  cases hu : useOverlayDate m (some o) <;>
    simp [merge_exif_data, hu, isDateTag, tagDateTimeOriginal, tagDateTimeDigitized,
      tagDateTime]

theorem merge_slot_dtd (m : Option ExifDict) (o : ExifDict) :
    (merge_exif_data m (some o)).exif tagDateTimeDigitized =
      if useOverlayDate m (some o) ∧ (o.exif tagDateTimeDigitized).isSome then
        o.exif tagDateTimeDigitized
      else (m.getD emptyExif).exif tagDateTimeDigitized := by
  cases hu : useOverlayDate m (some o) <;>
    simp [merge_exif_data, hu, isDateTag, tagDateTimeOriginal, tagDateTimeDigitized,
      tagDateTime]

theorem merge_slot_dt (m : Option ExifDict) (o : ExifDict) :
    (merge_exif_data m (some o)).zeroth tagDateTime =
      if useOverlayDate m (some o) ∧ (o.zeroth tagDateTime).isSome then
        o.zeroth tagDateTime
      else (m.getD emptyExif).zeroth tagDateTime := by
  cases hu : useOverlayDate m (some o) <;>
    simp [merge_exif_data, hu, isDateTag, tagDateTimeOriginal, tagDateTimeDigitized,
      tagDateTime]

theorem get_exif_date_empty : get_exif_date (some emptyExif) = none := rfl

theorem get_exif_date_getD (m : Option ExifDict) :
    get_exif_date (some (m.getD emptyExif)) = get_exif_date m := by
  cases m with
  | none => exact get_exif_date_empty
  | some mm => rfl

/-- The oldest parseable date of the merged EXIF dict is the older of the
two sides' oldest parseable dates (`merge_exif_data` followed by
`get_exif_date`, the image half of the §4.4 metadata merge). -/
theorem merged_exif_date_eq (m : Option ExifDict) (o? : Option ExifDict) :
    get_exif_date (some (merge_exif_data m o?)) =
      olderOpt (get_exif_date m) (get_exif_date o?) := by
  cases o? with
  | none =>
    show get_exif_date (some (m.getD emptyExif)) = olderOpt (get_exif_date m) none
    rw [olderOpt_none_right, get_exif_date_getD]
  | some o =>
    rw [get_exif_date_eq, merge_slot_dto, merge_slot_dtd, merge_slot_dt]
    have hm' : get_exif_date m =
        olderOpt (olderOpt (((m.getD emptyExif).exif tagDateTimeOriginal).bind strptimeColonFmt)
            (((m.getD emptyExif).exif tagDateTimeDigitized).bind strptimeColonFmt))
          (((m.getD emptyExif).zeroth tagDateTime).bind strptimeColonFmt) := by
      rw [← get_exif_date_getD m, get_exif_date_eq]
    have ho' : get_exif_date (some o) =
        olderOpt (olderOpt ((o.exif tagDateTimeOriginal).bind strptimeColonFmt)
            ((o.exif tagDateTimeDigitized).bind strptimeColonFmt))
          ((o.zeroth tagDateTime).bind strptimeColonFmt) := get_exif_date_eq o
    rcases hmd : get_exif_date m with _ | a <;>
      rcases hod : get_exif_date (some o) with _ | b
    · -- neither side has a date: the flag is false and all slots fall back
      have hu : useOverlayDate m (some o) = false := by
        simp [useOverlayDate, hmd, hod]
      rw [hmd] at hm'
      simp only [hu, Bool.false_eq_true, false_and, if_false]
      exact hm'.symm
    · -- only the overlay has a date: every slot the overlay owns wins,
      -- and the main contributes nothing
      have hu : useOverlayDate m (some o) = true := by
        simp [useOverlayDate, hmd, hod]
      rw [hmd] at hm'
      rw [hod] at ho'
      obtain ⟨hp12, hp3⟩ := (olderOpt_eq_none_iff _ _).mp hm'.symm
      obtain ⟨hp1, hp2⟩ := (olderOpt_eq_none_iff _ _).mp hp12
      have e1 : (if useOverlayDate m (some o) = true ∧ (o.exif tagDateTimeOriginal).isSome then
          o.exif tagDateTimeOriginal
        else (m.getD emptyExif).exif tagDateTimeOriginal).bind strptimeColonFmt =
          (o.exif tagDateTimeOriginal).bind strptimeColonFmt := by
        cases hs : o.exif tagDateTimeOriginal <;> simp [hu, hs, hp1]
      have e2 : (if useOverlayDate m (some o) = true ∧ (o.exif tagDateTimeDigitized).isSome then
          o.exif tagDateTimeDigitized
        else (m.getD emptyExif).exif tagDateTimeDigitized).bind strptimeColonFmt =
          (o.exif tagDateTimeDigitized).bind strptimeColonFmt := by
        cases hs : o.exif tagDateTimeDigitized <;> simp [hu, hs, hp2]
      have e3 : (if useOverlayDate m (some o) = true ∧ (o.zeroth tagDateTime).isSome then
          o.zeroth tagDateTime
        else (m.getD emptyExif).zeroth tagDateTime).bind strptimeColonFmt =
          (o.zeroth tagDateTime).bind strptimeColonFmt := by
        cases hs : o.zeroth tagDateTime <;> simp [hu, hs, hp3]
      rw [e1, e2, e3, ← ho']
      rfl
    · -- only the main has a date: the flag is false, slots fall back to main
      have hu : useOverlayDate m (some o) = false := by
        simp [useOverlayDate, hmd, hod]
      rw [hmd] at hm'
      simp only [hu, Bool.false_eq_true, false_and, if_false]
      exact hm'.symm.trans rfl
    · -- both dated: the flag decides, the result is the older key either way
      rw [hmd] at hm'
      rw [hod] at ho'
      rcases Nat.lt_or_ge b a with hba | hab
      · have hu : useOverlayDate m (some o) = true := by
          simp [useOverlayDate, hmd, hod, hba]
        obtain ⟨hqmem, hq1, hq2, hq3⟩ := olderOpt3_elim ho'.symm
        obtain ⟨-, hp1, hp2, hp3⟩ := olderOpt3_elim hm'.symm
        have hR : olderOpt (some a) (some b) = some b := by
          simp [olderOpt]
          omega
        rw [hR]
        apply olderOpt3_intro
        · -- the overlay slot attaining the overlay's oldest date survives
          rcases hqmem with h | h | h
          · obtain ⟨v, hv, -⟩ := Option.bind_eq_some.mp h
            left
            rw [if_pos ⟨hu, by simp [hv]⟩]
            exact h
          · obtain ⟨v, hv, -⟩ := Option.bind_eq_some.mp h
            right; left
            rw [if_pos ⟨hu, by simp [hv]⟩]
            exact h
          · obtain ⟨v, hv, -⟩ := Option.bind_eq_some.mp h
            right; right
            rw [if_pos ⟨hu, by simp [hv]⟩]
            exact h
        · intro v hv
          by_cases hs : (o.exif tagDateTimeOriginal).isSome
          · rw [if_pos ⟨hu, hs⟩] at hv
            exact hq1 v hv
          · rw [if_neg (fun hc => hs hc.2)] at hv
            exact le_of_lt (lt_of_lt_of_le hba (hp1 v hv))
        · intro v hv
          by_cases hs : (o.exif tagDateTimeDigitized).isSome
          · rw [if_pos ⟨hu, hs⟩] at hv
            exact hq2 v hv
          · rw [if_neg (fun hc => hs hc.2)] at hv
            exact le_of_lt (lt_of_lt_of_le hba (hp2 v hv))
        · intro v hv
          by_cases hs : (o.zeroth tagDateTime).isSome
          · rw [if_pos ⟨hu, hs⟩] at hv
            exact hq3 v hv
          · rw [if_neg (fun hc => hs hc.2)] at hv
            exact le_of_lt (lt_of_lt_of_le hba (hp3 v hv))
      · have hu : useOverlayDate m (some o) = false := by
          simp [useOverlayDate, hmd, hod, Nat.not_lt.mpr hab]
        simp only [hu, Bool.false_eq_true, false_and, if_false]
        rw [← hm']
        simp [olderOpt, hab]

/-! ### Video container dates -/

/-- Parse a container `creation_time` value:
`tags['creation_time'].split('.')[0]` then
`strptime(..., '%Y-%m-%d %H:%M:%S')` (index.py:360, index.py:533). -/
def parseCreationTime (s : String) : Option Nat :=
  strptimeDashFmt (String.mk (s.data.takeWhile (fun c => c ≠ '.')))

/-- `get_video_creation_date` (index.py:345), with the ffprobe JSON
collapsed to the optional `format.tags.creation_time` value: any missing
layer, parse failure, or probe failure yields `None`. -/
def get_video_creation_date (creation_time : Option String) : Option Nat :=
  match creation_time with
  | none => none
  | some s => parseCreationTime s

/-- The reconciled date computed for a video overlay pair
(index.py:413-417): the main's filename date (an *unguarded* `strptime`
on `original_path.name.split('_')[0]`; failure raises and the `except`
arm abandons the pair, modelled as `none`) combined with the main's
container `creation_time` by `min`.  The overlay asset is not consulted. -/
def videoPairFinalDate (origName : String) (creation_time : Option String) : Option Nat :=
  match extract_date_from_filename origName with
  | none => none
  | some fd =>
    some (match get_video_creation_date creation_time with
          | none => fd
          | some vd => if fd ≤ vd then fd else vd)

/-! ### Per-file metadata and duplicate scoring -/

/-- The ffprobe result held in `metadata['video_metadata']`, collapsed to
the `format.tags.creation_time` chain that `score_metadata` reads: `none`
at any layer means the corresponding `in` test fails. -/
structure VideoFmt where
  creation_time : Option String

/-- The dict built by `get_file_metadata` (index.py:469). -/
structure Metadata where
  creation_time : Nat
  modification_time : Nat
  exif_data : Option ExifDict
  video_metadata : Option VideoFmt
  filename_date : Option Nat

/-- A file as `get_file_metadata` observes it: name, suffix, `stat`
times, and the payloads the image/video probes would return for it. -/
structure FileInfo where
  name : String
  ext : String
  ctime : Nat
  mtime : Nat
  exifPayload : Option ExifDict
  videoTags : Option VideoFmt

def imageExts : List String := [".jpg", ".jpeg", ".png", ".webp"]

/-- `get_file_metadata` (index.py:469): EXIF is loaded only for image
suffixes (failures leave the field `None`), ffprobe runs only for
`.mp4`. -/
def get_file_metadata (fi : FileInfo) : Metadata :=
  { creation_time := fi.ctime
    modification_time := fi.mtime
    exif_data := if imageExts.contains fi.ext.toLower then fi.exifPayload else none
    video_metadata := if fi.ext.toLower = ".mp4" then fi.videoTags else none
    filename_date := extract_date_from_filename fi.name }

/-- `score_metadata` (index.py:512): collect filename date, EXIF date
(when `exif_data` is truthy), and parsed container `creation_time` (when
`video_metadata` is truthy); the score is the oldest collected date, or
`min(creation_time, modification_time)` when none was collected. -/
def score_metadata (m : Metadata) : Nat :=
  let dates : List Nat :=
    (match m.filename_date with
     | some d => [d]
     | none => []) ++
    (match m.exif_data with
     | some e =>
       (match get_exif_date (some e) with
        | some d => [d]
        | none => [])
     | none => []) ++
    (match m.video_metadata with
     | some v =>
       (match v.creation_time with
        | some s =>
          (match parseCreationTime s with
           | some d => [d]
           | none => [])
        | none => [])
     | none => [])
  match pyListMin dates with
  | some oldest => oldest
  | none => Nat.min m.creation_time m.modification_time

/-- The candidate dates of an asset as §4.3 step 3 describes them:
filename date, then (for images) the embedded-image date, then (for
videos) the embedded-video date. -/
def assetCandidateDates (fi : FileInfo) : List Nat :=
  (extract_date_from_filename fi.name).toList ++
  (if imageExts.contains fi.ext.toLower then
    (get_exif_date fi.exifPayload).toList
   else []) ++
  (if fi.ext.toLower = ".mp4" then
    (match fi.videoTags with
     | some v => (get_video_creation_date v.creation_time).toList
     | none => [])
   else [])

theorem score_metadata_spec (fi : FileInfo) :
    score_metadata (get_file_metadata fi) =
      match pyListMin (assetCandidateDates fi) with
      | some oldest => oldest
      | none => Nat.min fi.ctime fi.mtime := by
  have hlist :
      (match (get_file_metadata fi).filename_date with
       | some d => [d]
       | none => []) ++
      (match (get_file_metadata fi).exif_data with
       | some e =>
         (match get_exif_date (some e) with
          | some d => [d]
          | none => [])
       | none => []) ++
      (match (get_file_metadata fi).video_metadata with
       | some v =>
         (match v.creation_time with
          | some s =>
            (match parseCreationTime s with
             | some d => [d]
             | none => [])
          | none => [])
       | none => []) = assetCandidateDates fi := by
    unfold get_file_metadata assetCandidateDates
    by_cases hmp4 : fi.ext.toLower = ".mp4"
    · have himg : imageExts.contains fi.ext.toLower = false := by
        rw [hmp4]; decide
      have hnm : ¬ (".mp4" ∈ imageExts) := by decide
      rcases hfd : extract_date_from_filename fi.name with _ | fd <;>
        rcases hv : fi.videoTags with _ | v
      · simp [himg, hmp4, hfd, hv, hnm]
      · rcases hct : v.creation_time with _ | s
        · simp [himg, hmp4, hfd, hv, hct, hnm, get_video_creation_date]
        · rcases hp : parseCreationTime s with _ | d2 <;>
            simp [himg, hmp4, hfd, hv, hct, hp, hnm, get_video_creation_date]
      · simp [himg, hmp4, hfd, hv, hnm]
      · rcases hct : v.creation_time with _ | s
        · simp [himg, hmp4, hfd, hv, hct, hnm, get_video_creation_date]
        · rcases hp : parseCreationTime s with _ | d2 <;>
            simp [himg, hmp4, hfd, hv, hct, hp, hnm, get_video_creation_date]
    · by_cases himg : imageExts.contains fi.ext.toLower
      · have hmem : fi.ext.toLower ∈ imageExts := by simpa using himg
        rcases hfd : extract_date_from_filename fi.name with _ | fd <;>
          rcases he : fi.exifPayload with _ | e
        · simp [hmem, hmp4, hfd, he, get_exif_date]
        · rcases hge : get_exif_date (some e) with _ | d1 <;>
            simp [hmem, hmp4, hfd, he, hge]
        · simp [hmem, hmp4, hfd, he, get_exif_date]
        · rcases hge : get_exif_date (some e) with _ | d1 <;>
            simp [hmem, hmp4, hfd, he, hge]
      · have hmem : ¬ fi.ext.toLower ∈ imageExts := by simpa using himg
        rcases hfd : extract_date_from_filename fi.name with _ | fd <;>
          simp [hmem, hmp4, hfd]
  show (match pyListMin _ with
        | some oldest => oldest
        | none => Nat.min (get_file_metadata fi).creation_time
            (get_file_metadata fi).modification_time) = _
  rw [hlist]
  rfl

/-! ### Duplicate groups (`remove_duplicates`, index.py:548) -/

/-- One member of a duplicate group: the file path together with the
metadata gathered for it in the analysis pass. -/
def Entry : Type := String × Metadata

def scoreE (e : Entry) : Nat := score_metadata e.2

/-- `scored_files.sort(key=lambda x: x[2])` (index.py:588): Python's
stable sort by the precomputed score.  A stable sort for a total
preorder is unique as a function, so it is embedded as the (stable)
insertion sort ordered by `scoreE`. -/
def sortGroup (g : List Entry) : List Entry :=
  List.insertionSort (fun a b => scoreE a ≤ scoreE b) g

/-- The survivor: `scored_files[0]` after sorting (index.py:591). -/
def groupSurvivor (g : List Entry) : Option Entry := (sortGroup g).head?

/-- The deletions: `scored_files[1:]` after sorting (index.py:591). -/
def groupDeletions (g : List Entry) : List Entry := (sortGroup g).tail

/-- The first member attaining the minimal score: element kept unless a
strictly smaller score appears later. -/
def firstMinEntry : List Entry → Option Entry
  | [] => none
  | a :: t =>
    some (match firstMinEntry t with
          | none => a
          | some b => if scoreE b < scoreE a then b else a)

theorem head_sortGroup (g : List Entry) :
    (sortGroup g).head? = firstMinEntry g := by
  induction g with
  | nil => rfl
  | cons a t ih =>
    show (List.orderedInsert _ a (sortGroup t)).head? = _
    cases hs : sortGroup t with
    | nil =>
      have ht : firstMinEntry t = none := by rw [← ih, hs]; rfl
      simp [List.orderedInsert, firstMinEntry, ht]
    | cons h s =>
      have ht : firstMinEntry t = some h := by rw [← ih, hs]; rfl
      show (if scoreE a ≤ scoreE h then a :: h :: s
            else h :: List.orderedInsert _ a s).head? = _
      rw [firstMinEntry, ht]
      by_cases hle : scoreE a ≤ scoreE h
      · have hnl : ¬ scoreE h < scoreE a := by omega
        simp [hle, hnl]
      · have hl : scoreE h < scoreE a := by omega
        simp [hle, hl]

theorem perm_sortGroup (g : List Entry) : List.Perm (sortGroup g) g :=
  List.perm_insertionSort _ g

/-! ### The analysis pass of `remove_duplicates` (index.py:561-576) -/

/-- A file as the analysis loop sees it: its path, and `some (digest,
metadata)` when hashing plus `get_file_metadata` succeed, `none` when any
exception is raised for it (unreadable file, failed `stat`, ...). -/
structure ProbedFile where
  path : String
  result : Option (String × Metadata)

/-- `defaultdict(list)` keyed by hex digest: appending keeps insertion
order of keys and of values within a key. -/
def HashDict : Type := List (String × List (String × Metadata))

def dictAppend (d : HashDict) (hsh : String) (v : String × Metadata) : HashDict :=
  match d with
  | [] => [(hsh, [v])]
  | (k, vs) :: rest =>
    if k = hsh then (k, vs ++ [v]) :: rest else (k, vs) :: dictAppend rest hsh v

/-- One iteration of the analysis loop: a success appends to the digest's
bucket, an exception logs the path and leaves the dict untouched
(`except` arm, index.py:575). -/
def analyzeStep (st : HashDict × List String) (f : ProbedFile) : HashDict × List String :=
  match f.result with
  | some (hsh, md) => (dictAppend st.1 hsh (f.path, md), st.2)
  | none => (st.1, st.2 ++ [f.path])

/-- The whole analysis pass: fold over the enumerated files, starting
from the empty dict and no recorded errors. -/
def analyzeAll (fs : List ProbedFile) : HashDict × List String :=
  fs.foldl analyzeStep ([], [])

theorem analyze_dict_indep (fs : List ProbedFile) (d : HashDict) (e e' : List String) :
    (fs.foldl analyzeStep (d, e)).1 = (fs.foldl analyzeStep (d, e')).1 := by
  induction fs generalizing d e e' with
  | nil => rfl
  | cons f rest ih =>
    cases hr : f.result with
    | some v =>
      simp only [List.foldl_cons, analyzeStep, hr]
      exact ih _ _ _
    | none =>
      simp only [List.foldl_cons, analyzeStep, hr]
      exact ih _ _ _

theorem analyze_dict_filter (fs : List ProbedFile) (d : HashDict) (e : List String) :
    (fs.foldl analyzeStep (d, e)).1 =
      ((fs.filter (fun f => f.result.isSome)).foldl analyzeStep (d, e)).1 := by
  induction fs generalizing d e with
  | nil => rfl
  | cons f rest ih =>
    cases hr : f.result with
    | some v =>
      simp only [List.foldl_cons, analyzeStep, hr, List.filter_cons, Option.isSome_some,
        if_true]
      exact ih _ _
    | none =>
      simp only [List.foldl_cons, analyzeStep, hr, List.filter_cons, Option.isSome_none,
        Bool.false_eq_true, if_false]
      exact (ih _ _).trans (analyze_dict_indep _ _ _ _)

theorem analyze_errors (fs : List ProbedFile) (d : HashDict) (e : List String) :
    (fs.foldl analyzeStep (d, e)).2 =
      e ++ (fs.filter (fun f => f.result.isNone)).map (fun f => f.path) := by
  induction fs generalizing d e with
  | nil => simp
  | cons f rest ih =>
    cases hr : f.result with
    | some v =>
      simp only [List.foldl_cons, analyzeStep, hr, List.filter_cons, Option.isNone_some,
        Bool.false_eq_true, if_false]
      exact ih _ _
    | none =>
      simp only [List.foldl_cons, analyzeStep, hr, List.filter_cons, Option.isNone_none,
        if_true, List.map_cons]
      rw [ih]
      simp

/-! ### Metadata stamping (`update_image_metadata`, `update_video_metadata`) -/

def keyYear (k : Nat) : Nat := k / 60 / 60 / 24 / 32 / 13
def keyMonth (k : Nat) : Nat := k / 60 / 60 / 24 / 32 % 13
def keyDay (k : Nat) : Nat := k / 60 / 60 / 24 % 32
def keyHour (k : Nat) : Nat := k / 60 / 60 % 24
def keyMinute (k : Nat) : Nat := k / 60 % 60
def keySecond (k : Nat) : Nat := k % 60

/-- `date.strftime("%Y:%m:%d %H:%M:%S")` on a key (index.py:698). -/
def fmtColon (k : Nat) : String :=
  String.mk (pad4Chars (keyYear k) ++ ':' :: pad2Chars (keyMonth k) ++ ':' ::
    pad2Chars (keyDay k) ++ ' ' :: pad2Chars (keyHour k) ++ ':' ::
    pad2Chars (keyMinute k) ++ ':' :: pad2Chars (keySecond k))

/-- `date.strftime("%Y-%m-%d %H:%M:%S")` on a key (index.py:781). -/
def fmtDash (k : Nat) : String :=
  String.mk (pad4Chars (keyYear k) ++ '-' :: pad2Chars (keyMonth k) ++ '-' ::
    pad2Chars (keyDay k) ++ ' ' :: pad2Chars (keyHour k) ++ ':' ::
    pad2Chars (keyMinute k) ++ ':' :: pad2Chars (keySecond k))

/-- The three date slot writes of index.py:713-715. -/
def setExifDates (e : ExifDict) (v : String) : ExifDict :=
  { e with
    zeroth := fun t => if t = tagDateTime then some v else e.zeroth t,
    exif := fun t =>
      if t = tagDateTimeOriginal ∨ t = tagDateTimeDigitized then some v else e.exif t }

/-- The observable state `update_image_metadata` touches: the file name,
its embedded EXIF block (the default empty dict when absent or
unloadable), and the filesystem access/modification times. -/
structure ImageState where
  name : String
  exif : ExifDict
  atime : Nat
  mtime : Nat

/-- `update_image_metadata` (index.py:686): no filename date means no
change; otherwise write all three date tags and `os.utime` both
timestamps iff there is no parseable embedded date or the filename date
is strictly older (`time.mktime` is rendered by the monotone key
itself). -/
def update_image_metadata (s : ImageState) : ImageState :=
  match extract_date_from_filename s.name with
  | none => s
  | some d =>
    if (match get_exif_date (some s.exif) with
        | none => true
        | some ex => decide (d < ex)) then
      { s with exif := setExifDates s.exif (fmtColon d), atime := d, mtime := d }
    else s

/-- The observable state `update_video_metadata` touches: the file name,
the container's `creation_time` tag (`none` when the probe found no
`format`/`tags`/`creation_time` chain), the packed codec streams
(opaque), and the filesystem times. -/
structure VideoState where
  name : String
  creation_time : Option String
  streams : Nat
  atime : Nat
  mtime : Nat

/-- `update_video_metadata` (index.py:742): no filename date means no
change; a present `creation_time` tag (parseable or not) means no change
(the guard at index.py:771 only tests presence); otherwise a stream-copy
re-encode writes `creation_time` and `os.utime` stamps both times. -/
def update_video_metadata (s : VideoState) : VideoState :=
  match extract_date_from_filename s.name with
  | none => s
  | some d =>
    if s.creation_time.isSome then s
    else { s with creation_time := some (fmtDash d), atime := d, mtime := d }

theorem setExifDates_idem (e : ExifDict) (v : String) :
    setExifDates (setExifDates e v) v = setExifDates e v := by
  unfold setExifDates
  congr 1 <;> funext t <;> split_ifs <;> simp [*]

/-! ### Round-trip facts for zero-padded date tokens -/

theorem digCh_isDigit {k : Nat} (hk : k < 10) : (digCh k).isDigit = true := by
  interval_cases k <;> decide

theorem digitVal_digCh {k : Nat} (hk : k < 10) : digitVal (digCh k) = k := by
  interval_cases k <;> decide

theorem digCh_ne_underscore {k : Nat} (hk : k < 10) : digCh k ≠ '_' := by
  interval_cases k <;> decide

theorem takeWhile_append_cons (l r : List Char) (h : ∀ c ∈ l, c ≠ '_') :
    (l ++ '_' :: r).takeWhile (fun c => c ≠ '_') = l := by
  induction l with
  | nil => simp [List.takeWhile]
  | cons c cs ih =>
    have hc : c ≠ '_' := h c (List.mem_cons_self c cs)
    simp only [List.cons_append, List.takeWhile_cons]
    rw [if_pos (by simpa using hc)]
    rw [ih (fun x hx => h x (List.mem_cons_of_mem c hx))]

theorem takeWhile_of_no_underscore (l : List Char) (h : ∀ c ∈ l, c ≠ '_') :
    l.takeWhile (fun c => c ≠ '_') = l := by
  induction l with
  | nil => rfl
  | cons c cs ih =>
    have hc : c ≠ '_' := h c (List.mem_cons_self c cs)
    simp only [List.takeWhile_cons]
    rw [if_pos (by simpa using hc)]
    rw [ih (fun x hx => h x (List.mem_cons_of_mem c hx))]

theorem pad4Chars_no_underscore (n : Nat) : ∀ c ∈ pad4Chars n, c ≠ '_' := by
  intro c hc
  simp only [pad4Chars, List.mem_cons, List.not_mem_nil, or_false] at hc
  rcases hc with h | h | h | h <;> subst h <;>
    exact digCh_ne_underscore (Nat.mod_lt _ (by omega))

theorem pad2Chars_no_underscore (n : Nat) : ∀ c ∈ pad2Chars n, c ≠ '_' := by
  intro c hc
  simp only [pad2Chars, List.mem_cons, List.not_mem_nil, or_false] at hc
  rcases hc with h | h <;> subst h <;>
    exact digCh_ne_underscore (Nat.mod_lt _ (by omega))

theorem parse4Digits_pad (y : Nat) (hy : y ≤ 9999) (r : List Char) :
    parse4Digits (pad4Chars y ++ r) = some (y, r) := by
  have h1 := digCh_isDigit (Nat.mod_lt (y / 1000) (by omega))
  have h2 := digCh_isDigit (Nat.mod_lt (y / 100) (by omega))
  have h3 := digCh_isDigit (Nat.mod_lt (y / 10) (by omega))
  have h4 := digCh_isDigit (Nat.mod_lt y (by omega))
  have v1 := digitVal_digCh (Nat.mod_lt (y / 1000) (by omega))
  have v2 := digitVal_digCh (Nat.mod_lt (y / 100) (by omega))
  have v3 := digitVal_digCh (Nat.mod_lt (y / 10) (by omega))
  have v4 := digitVal_digCh (Nat.mod_lt y (by omega))
  simp only [pad4Chars, List.cons_append, List.nil_append, parse4Digits, h1, h2, h3, h4,
    v1, v2, v3, v4, and_self, if_true, Option.some.injEq, Prod.mk.injEq]
  constructor
  · omega
  · trivial

theorem parseMonth2_pad (m : Nat) (h1 : 1 ≤ m) (h2 : m ≤ 12) (r : List Char) :
    parseMonth2 (pad2Chars m ++ r) = some (m, r) := by
  have d1 := digCh_isDigit (Nat.mod_lt (m / 10) (by omega))
  have d2 := digCh_isDigit (Nat.mod_lt m (by omega))
  have v1 := digitVal_digCh (Nat.mod_lt (m / 10) (by omega))
  have v2 := digitVal_digCh (Nat.mod_lt m (by omega))
  simp only [pad2Chars, List.cons_append, parseMonth2, d1, d2, v1, v2, true_and,
    eq_self_iff_true, and_true]
  split_ifs <;>
    first
    | rfl
    | (simp only [Option.some.injEq, Prod.mk.injEq]
       exact ⟨by omega, rfl⟩)
    | (exfalso; omega)

theorem parseDay2_pad (d : Nat) (h1 : 1 ≤ d) (h2 : d ≤ 31) (r : List Char) :
    parseDay2 (pad2Chars d ++ r) = some (d, r) := by
  have g1 := digCh_isDigit (Nat.mod_lt (d / 10) (by omega))
  have g2 := digCh_isDigit (Nat.mod_lt d (by omega))
  have v1 := digitVal_digCh (Nat.mod_lt (d / 10) (by omega))
  have v2 := digitVal_digCh (Nat.mod_lt d (by omega))
  simp only [pad2Chars, List.cons_append, parseDay2, g1, g2, v1, v2, true_and,
    eq_self_iff_true, and_true]
  split_ifs <;>
    first
    | rfl
    | (simp only [Option.some.injEq, Prod.mk.injEq]
       exact ⟨by omega, rfl⟩)
    | (exfalso; omega)

theorem daysInMonth_le_31 (y m : Nat) : daysInMonth y m ≤ 31 := by
  unfold daysInMonth
  split_ifs <;> omega

theorem strptimeYmd_pad (y m d : Nat) (hy1 : 1 ≤ y) (hy2 : y ≤ 9999)
    (hm1 : 1 ≤ m) (hm2 : m ≤ 12) (hd1 : 1 ≤ d) (hd2 : d ≤ daysInMonth y m) :
    strptimeYmd
      (String.mk (pad4Chars y ++ ('-' :: (pad2Chars m ++ ('-' :: pad2Chars d))))) =
      some (dtKey y m d 0 0 0) := by
  have hd31 : d ≤ 31 := le_trans hd2 (daysInMonth_le_31 y m)
  have hday := parseDay2_pad d hd1 hd31 []
  rw [List.append_nil] at hday
  have hmk : mkDT y m d 0 0 0 = some (dtKey y m d 0 0 0) := by
    unfold mkDT
    rw [if_pos ⟨hy1, hy2, hm1, hm2, hd1, hd2, by omega, by omega, by omega⟩]
  show (match parse4Digits (pad4Chars y ++ ('-' :: (pad2Chars m ++ ('-' :: pad2Chars d)))) with
        | none => none
        | some (yy, r1) =>
          match expectChar '-' r1 with
          | none => none
          | some r2 =>
            match parseMonth2 r2 with
            | none => none
            | some (mm, r3) =>
              match expectChar '-' r3 with
              | none => none
              | some r4 =>
                match parseDay2 r4 with
                | none => none
                | some (dd, r5) => if r5 = [] then mkDT yy mm dd 0 0 0 else none) = _
  rw [parse4Digits_pad y hy2]
  simp only [expectChar, if_pos rfl, if_true, ite_true, eq_self_iff_true,
    parseMonth2_pad m hm1 hm2, hday, hmk]

theorem strptimeYmd_pad_dash (y m d : Nat) (hy2 : y ≤ 9999)
    (hm1 : 1 ≤ m) (hm2 : m ≤ 12) (hd1 : 1 ≤ d) (hd31 : d ≤ 31) (rest : List Char) :
    strptimeYmd
      (String.mk (pad4Chars y ++
        ('-' :: (pad2Chars m ++ ('-' :: (pad2Chars d ++ ('-' :: rest))))))) = none := by
  show (match parse4Digits (pad4Chars y ++
          ('-' :: (pad2Chars m ++ ('-' :: (pad2Chars d ++ ('-' :: rest)))))) with
        | none => none
        | some (yy, r1) =>
          match expectChar '-' r1 with
          | none => none
          | some r2 =>
            match parseMonth2 r2 with
            | none => none
            | some (mm, r3) =>
              match expectChar '-' r3 with
              | none => none
              | some r4 =>
                match parseDay2 r4 with
                | none => none
                | some (dd, r5) => if r5 = [] then mkDT yy mm dd 0 0 0 else none) = _
  rw [parse4Digits_pad y hy2]
  simp only [expectChar, if_pos rfl, if_true, ite_true, eq_self_iff_true,
    parseMonth2_pad m hm1 hm2, parseDay2_pad d hd1 hd31 ('-' :: rest)]
  simp

/-! ### Helper facts for the claim theorems -/

theorem firstMinEntry_eq_none_iff (g : List Entry) : firstMinEntry g = none ↔ g = [] := by
  cases g <;> simp [firstMinEntry]

theorem firstMinEntry_le (g : List Entry) (s : Entry) (h : firstMinEntry g = some s) :
    ∀ x ∈ g, scoreE s ≤ scoreE x := by
  induction g generalizing s with
  | nil => simp [firstMinEntry] at h
  | cons a t ih =>
    rw [firstMinEntry] at h
    rcases hft : firstMinEntry t with _ | b
    · have ht : t = [] := (firstMinEntry_eq_none_iff t).mp hft
      subst ht
      rw [hft] at h
      simp only [Option.some.injEq] at h
      subst h
      intro x hx
      simp only [List.mem_singleton] at hx
      subst hx
      exact le_refl _
    · rw [hft] at h
      simp only [Option.some.injEq] at h
      subst h
      intro x hx
      rcases List.mem_cons.mp hx with hxa | hxt
      · subst hxa
        by_cases hba : scoreE b < scoreE x
        · rw [if_pos hba]
          omega
        · rw [if_neg hba]
      · have hb := ih b hft x hxt
        by_cases hba : scoreE b < scoreE a
        · rw [if_pos hba]
          exact hb
        · rw [if_neg hba]
          omega

theorem pyListMin_eq_none_iff (l : List Nat) : pyListMin l = none ↔ l = [] := by
  cases l <;> simp [pyListMin, List.min?]

/-! ### Claim theorems -/

/-- C1: for every duplicate group of size ≥ 2, the survivor produced by
`remove_duplicates` (head of the stable sort by score) is the member with
the smallest score, ties resolved in favour of the member seen first in
the original enumeration order, and the remaining members — the whole
group minus that one survivor — are exactly the entries scheduled for
deletion. -/
theorem claim_c1_survivor_first_min (g : List Entry) (hg : 2 ≤ g.length) :
    ∃ s, groupSurvivor g = some s ∧ firstMinEntry g = some s ∧
      (∀ x ∈ g, scoreE s ≤ scoreE x) ∧ List.Perm g (s :: groupDeletions g) := by
  have hne : g ≠ [] := by
    intro h
    subst h
    simp at hg
  rcases hfm : firstMinEntry g with _ | s
  · exact absurd ((firstMinEntry_eq_none_iff g).mp hfm) hne
  refine ⟨s, ?_, rfl, firstMinEntry_le g s hfm, ?_⟩
  · rw [groupSurvivor, head_sortGroup, hfm]
  · have hhead : (sortGroup g).head? = some s := by rw [head_sortGroup, hfm]
    have hcons : s :: (sortGroup g).tail = sortGroup g :=
      List.cons_head?_tail (Option.mem_def.mpr hhead)
    have : List.Perm (s :: groupDeletions g) g := by
      rw [groupDeletions, hcons]
      exact perm_sortGroup g
    exact this.symm

def mdOf (k : Nat) : Metadata :=
  { creation_time := 0, modification_time := 0, exif_data := none,
    video_metadata := none, filename_date := some k }

def gW : List Entry :=
  [("a.jpg", mdOf (dtKey 2021 3 1 0 0 0)),
   ("b.jpg", mdOf (dtKey 2021 1 10 0 0 0)),
   ("c.jpg", mdOf (dtKey 2021 2 20 0 0 0))]

theorem claim_c1_witness :
    2 ≤ gW.length ∧
      ∃ s, groupSurvivor gW = some s ∧ firstMinEntry gW = some s ∧
        (∀ x ∈ gW, scoreE s ≤ scoreE x) ∧ List.Perm gW (s :: groupDeletions gW) :=
  ⟨by decide, claim_c1_survivor_first_min gW (by decide)⟩

/-- C2: the score `remove_duplicates` assigns to a group member is the
oldest of the candidate dates drawn from the filename, the embedded EXIF
tags (image suffixes only) and the container `creation_time` (`.mp4`
only); with no candidate at all it is the minimum of the filesystem
creation and modification times. -/
theorem claim_c2_score_oldest (fi : FileInfo) :
    score_metadata (get_file_metadata fi) =
      match pyListMin (assetCandidateDates fi) with
      | some oldest => oldest
      | none => Nat.min fi.ctime fi.mtime :=
  score_metadata_spec fi

/-- C3 (amended): `extract_date_from_filename` parses only the prefix up
to the first `'_'`; a well-formed zero-padded `YYYY-MM-DD` token followed
by `'_'` yields its date, while the same token followed by `'-'` yields
`none`, because the split happens on `'_'` alone and the trailing
characters then fail the full-consumption check of `strptime`. -/
theorem claim_c3_filename_date (y m d : Nat) (rest : List Char)
    (hy1 : 1 ≤ y) (hy2 : y ≤ 9999) (hm1 : 1 ≤ m) (hm2 : m ≤ 12)
    (hd1 : 1 ≤ d) (hd2 : d ≤ daysInMonth y m) :
    extract_date_from_filename
        (String.mk (pad4Chars y ++
          ('-' :: (pad2Chars m ++ ('-' :: (pad2Chars d ++ '_' :: rest)))))) =
      some (dtKey y m d 0 0 0) ∧
    ((∀ c ∈ rest, c ≠ '_') →
      extract_date_from_filename
          (String.mk (pad4Chars y ++
            ('-' :: (pad2Chars m ++ ('-' :: (pad2Chars d ++ '-' :: rest)))))) = none) := by
  have htok : ∀ c ∈ pad4Chars y ++ ('-' :: (pad2Chars m ++ ('-' :: pad2Chars d))), c ≠ '_' := by
    intro c hc
    simp only [List.mem_append, List.mem_cons] at hc
    rcases hc with h | h | h | h | h
    · exact pad4Chars_no_underscore y c h
    · subst h; decide
    · exact pad2Chars_no_underscore m c h
    · subst h; decide
    · exact pad2Chars_no_underscore d c h
  constructor
  · have hshape :
        pad4Chars y ++ ('-' :: (pad2Chars m ++ ('-' :: (pad2Chars d ++ '_' :: rest)))) =
          (pad4Chars y ++ ('-' :: (pad2Chars m ++ ('-' :: pad2Chars d)))) ++ '_' :: rest := by
      simp [List.append_assoc, List.cons_append]
    show strptimeYmd (String.mk ((pad4Chars y ++
        ('-' :: (pad2Chars m ++ ('-' :: (pad2Chars d ++ '_' :: rest))))).takeWhile
          (fun c => c ≠ '_'))) = _
    rw [hshape, takeWhile_append_cons _ _ htok]
    exact strptimeYmd_pad y m d hy1 hy2 hm1 hm2 hd1 hd2
  · intro hrest
    have hall : ∀ c ∈ pad4Chars y ++
        ('-' :: (pad2Chars m ++ ('-' :: (pad2Chars d ++ '-' :: rest)))), c ≠ '_' := by
      intro c hc
      simp only [List.mem_append, List.mem_cons] at hc
      rcases hc with h | h | h | h | h | (h | h)
      · exact pad4Chars_no_underscore y c h
      · subst h; decide
      · exact pad2Chars_no_underscore m c h
      · subst h; decide
      · exact pad2Chars_no_underscore d c h
      · subst h; decide
      · exact hrest c h
    show strptimeYmd (String.mk ((pad4Chars y ++
        ('-' :: (pad2Chars m ++ ('-' :: (pad2Chars d ++ '-' :: rest))))).takeWhile
          (fun c => c ≠ '_'))) = _
    rw [takeWhile_of_no_underscore _ hall]
    exact strptimeYmd_pad_dash y m d hy2 hm1 hm2 hd1
      (le_trans hd2 (daysInMonth_le_31 y m)) rest

theorem claim_c3_witness :
    (22 ≤ daysInMonth 2023 11) ∧
    extract_date_from_filename
        (String.mk (pad4Chars 2023 ++
          ('-' :: (pad2Chars 11 ++ ('-' :: (pad2Chars 22 ++ '_' :: ['x'])))))) =
      some (dtKey 2023 11 22 0 0 0) ∧
    extract_date_from_filename
        (String.mk (pad4Chars 2023 ++
          ('-' :: (pad2Chars 11 ++ ('-' :: (pad2Chars 22 ++ '-' :: ['x'])))))) = none :=
  ⟨by decide,
   (claim_c3_filename_date 2023 11 22 ['x'] (by decide) (by decide) (by decide) (by decide)
     (by decide) (by decide)).1,
   (claim_c3_filename_date 2023 11 22 ['x'] (by decide) (by decide) (by decide) (by decide)
     (by decide) (by decide)).2 (by decide)⟩

/-- C3 counterexample: `"2023-11-22"` is a well-formed leading
`YYYY-MM-DD` token and parses on its own, yet a filename delimiting it
with `'-'` instead of `'_'` yields no date, contradicting the claim that
both delimiters work. -/
theorem claim_c3_counterexample :
    strptimeYmd "2023-11-22" = some (dtKey 2023 11 22 0 0 0) ∧
    extract_date_from_filename "2023-11-22_x.jpg" = some (dtKey 2023 11 22 0 0 0) ∧
    extract_date_from_filename "2023-11-22-abc.jpg" = none := by
  decide

/-- The dates `get_exif_date` collects, in tag-walk order. -/
def exifDatesList (e : ExifDict) : List Nat :=
  [e.exif tagDateTimeOriginal, e.exif tagDateTimeDigitized, e.zeroth tagDateTime].filterMap
    (fun ov => ov.bind strptimeColonFmt)

/-- C4 (amended): `get_exif_date` returns the *oldest* (minimum) among
all tags that parse under `'%Y:%m:%d %H:%M:%S'` — not the first
parseable tag of the priority walk — and it returns `none` exactly when
no tag parses; a tag that fails to parse is skipped without aborting the
walk (it simply contributes nothing to the collected list). -/
theorem claim_c4_exif_oldest (e : ExifDict) (v : Nat) :
    (get_exif_date (some e) = some v ↔
      v ∈ exifDatesList e ∧ ∀ w ∈ exifDatesList e, v ≤ w) ∧
    (get_exif_date (some e) = none ↔ exifDatesList e = []) := by
  constructor
  · show pyListMin (exifDatesList e) = some v ↔ _
    exact List.min?_eq_some_iff'
  · show pyListMin (exifDatesList e) = none ↔ _
    exact pyListMin_eq_none_iff _

def cexDictC4 : ExifDict :=
  { zeroth := fun t => if t = 306 then some "2022:01:01 00:00:00" else none
    exif := fun t => if t = 36867 then some "2023:05:01 00:00:00" else none
    gps := fun _ => none
    first := fun _ => none }

/-- C4 counterexample: `DateTimeOriginal` (highest priority) is present
and parseable, yet `get_exif_date` returns the 0th-IFD `DateTime` value
because it is older — the selected tag is not the highest-priority
parseable one. -/
theorem claim_c4_counterexample :
    cexDictC4.exif tagDateTimeOriginal = some "2023:05:01 00:00:00" ∧
    strptimeColonFmt "2023:05:01 00:00:00" = some (dtKey 2023 5 1 0 0 0) ∧
    get_exif_date (some cexDictC4) = some (dtKey 2022 1 1 0 0 0) ∧
    dtKey 2022 1 1 0 0 0 ≠ dtKey 2023 5 1 0 0 0 := by
  decide

/-- C5 (amended): for image pairs the reconciled date of the merged EXIF
block is the earlier of the main's and the overlay's dates when both
exist, whichever exists when exactly one does, and none when neither
does.  For video pairs the overlay's date is never consulted: the
stamped date is the main's filename date combined (by `min`) with the
main's container `creation_time`, and a main without a parseable
filename date aborts the pair. -/
theorem claim_c5_reconciled_date :
    (∀ (m o? : Option ExifDict),
      get_exif_date (some (merge_exif_data m o?)) =
        olderOpt (get_exif_date m) (get_exif_date o?)) ∧
    (∀ (origName : String) (ct : Option String),
      videoPairFinalDate origName ct =
        (extract_date_from_filename origName).map (fun fd =>
          match get_video_creation_date ct with
          | none => fd
          | some vd => if fd ≤ vd then fd else vd)) := by
  refine ⟨merged_exif_date_eq, ?_⟩
  intro origName ct
  unfold videoPairFinalDate
  cases extract_date_from_filename origName <;> rfl

def cexOverlayC5 : ExifDict :=
  { zeroth := fun t => if t = 306 then some "2022:04:15 00:00:00" else none
    exif := fun _ => none
    gps := fun _ => none
    first := fun _ => none }

/-- C5 counterexample: a video pair whose main has filename date
2022-05-01 (and no container date) and whose overlay PNG carries the
embedded date 2022-04-15; the overlay's date is strictly older, yet the
composited output is stamped with the main's 2022-05-01 — not the
earlier of the two. -/
theorem claim_c5_counterexample :
    extract_date_from_filename "2022-05-01_abc-original.mp4" = some (dtKey 2022 5 1 0 0 0) ∧
    get_video_creation_date none = none ∧
    get_exif_date (some cexOverlayC5) = some (dtKey 2022 4 15 0 0 0) ∧
    dtKey 2022 4 15 0 0 0 < dtKey 2022 5 1 0 0 0 ∧
    videoPairFinalDate "2022-05-01_abc-original.mp4" none = some (dtKey 2022 5 1 0 0 0) := by
  decide

/-- C6 (amended): in the non-date tag merge, a key present only on the
overlay does appear in the merged set, but a key present on *both*
takes the overlay's value — the merge loop copies every non-date overlay
tag unconditionally, overwriting the main's value, in every IFD. -/
theorem claim_c6_nondate_merge (m o : ExifDict) (t : Nat) (hd : isDateTag t = false) :
    (merge_exif_data (some m) (some o)).zeroth t = (o.zeroth t).or (m.zeroth t) ∧
    (merge_exif_data (some m) (some o)).exif t = (o.exif t).or (m.exif t) ∧
    (merge_exif_data (some m) (some o)).gps t = (o.gps t).or (m.gps t) ∧
    (merge_exif_data (some m) (some o)).first t = (o.first t).or (m.first t) := by
  have ht : (¬t = tagDateTime ∧ ¬t = tagDateTimeOriginal) ∧ ¬t = tagDateTimeDigitized := by
    simpa [isDateTag] using hd
  obtain ⟨⟨ht1, ht2⟩, ht3⟩ := ht
  cases hu : useOverlayDate (some m) (some o) <;>
    refine ⟨?_, ?_, ?_, ?_⟩
  · cases hoz : o.zeroth t <;>
      simp [merge_exif_data, hd, hu, hoz, ht1, ht2, ht3, Option.or]
  · cases hoe : o.exif t <;>
      simp [merge_exif_data, hd, hu, hoe, ht1, ht2, ht3, Option.or]
  · cases hog : o.gps t <;>
      simp [merge_exif_data, hd, hu, hog, ht1, ht2, ht3, Option.or]
  · cases hof : o.first t <;>
      simp [merge_exif_data, hd, hu, hof, ht1, ht2, ht3, Option.or]
  · cases hoz : o.zeroth t <;>
      simp [merge_exif_data, hd, hu, hoz, ht1, ht2, ht3, Option.or]
  · cases hoe : o.exif t <;>
      simp [merge_exif_data, hd, hu, hoe, ht1, ht2, ht3, Option.or]
  · cases hog : o.gps t <;>
      simp [merge_exif_data, hd, hu, hog, ht1, ht2, ht3, Option.or]
  · cases hof : o.first t <;>
      simp [merge_exif_data, hd, hu, hof, ht1, ht2, ht3, Option.or]

def cexMainC6 : ExifDict :=
  { zeroth := fun t => if t = 270 then some "main description" else none
    exif := fun _ => none
    gps := fun _ => none
    first := fun _ => none }

def cexOverlayC6 : ExifDict :=
  { zeroth := fun t => if t = 270 then some "overlay description" else none
    exif := fun _ => none
    gps := fun _ => none
    first := fun _ => none }

/-- C6 counterexample: the non-date tag 270 (ImageDescription) is present
on both sides; the merged set holds the overlay's value, not the main's
as the claim states. -/
theorem claim_c6_counterexample :
    cexMainC6.zeroth 270 = some "main description" ∧
    cexOverlayC6.zeroth 270 = some "overlay description" ∧
    (merge_exif_data (some cexMainC6) (some cexOverlayC6)).zeroth 270 =
      some "overlay description" ∧
    ("overlay description" : String) ≠ "main description" := by
  decide

theorem claim_c6_witness :
    isDateTag 270 = false ∧
    ((merge_exif_data (some cexMainC6) (some cexOverlayC6)).zeroth 270 =
        ((cexOverlayC6.zeroth 270).or (cexMainC6.zeroth 270)) ∧
      (merge_exif_data (some cexMainC6) (some cexOverlayC6)).exif 270 =
        ((cexOverlayC6.exif 270).or (cexMainC6.exif 270)) ∧
      (merge_exif_data (some cexMainC6) (some cexOverlayC6)).gps 270 =
        ((cexOverlayC6.gps 270).or (cexMainC6.gps 270)) ∧
      (merge_exif_data (some cexMainC6) (some cexOverlayC6)).first 270 =
        ((cexOverlayC6.first 270).or (cexMainC6.first 270))) :=
  ⟨by decide, claim_c6_nondate_merge cexMainC6 cexOverlayC6 270 (by decide)⟩

/-- C7 (amended): the merged dict's date-bearing keys are not uniformly
rewritten to the reconciled date.  When the overlay's date wins
(`use_overlay_date`), each of the three date slots takes the overlay's
verbatim value where the overlay has that slot and keeps the main's
verbatim value otherwise; when the main's date wins, every date slot
keeps the main's value — so a date tag carried over from the main may
differ from the chosen (oldest) date. -/
theorem claim_c7_date_slot_values (m : Option ExifDict) (o : ExifDict) :
    (merge_exif_data m (some o)).zeroth tagDateTime =
      (if useOverlayDate m (some o) ∧ (o.zeroth tagDateTime).isSome then
        o.zeroth tagDateTime
      else (m.getD emptyExif).zeroth tagDateTime) ∧
    (merge_exif_data m (some o)).exif tagDateTimeOriginal =
      (if useOverlayDate m (some o) ∧ (o.exif tagDateTimeOriginal).isSome then
        o.exif tagDateTimeOriginal
      else (m.getD emptyExif).exif tagDateTimeOriginal) ∧
    (merge_exif_data m (some o)).exif tagDateTimeDigitized =
      (if useOverlayDate m (some o) ∧ (o.exif tagDateTimeDigitized).isSome then
        o.exif tagDateTimeDigitized
      else (m.getD emptyExif).exif tagDateTimeDigitized) :=
  ⟨merge_slot_dt m o, merge_slot_dto m o, merge_slot_dtd m o⟩

def cexMainC7 : ExifDict :=
  { zeroth := fun _ => none
    exif := fun t => if t = 36867 then some "2022:05:01 00:00:00" else none
    gps := fun _ => none
    first := fun _ => none }

/-- C7 counterexample: the overlay's 0th-IFD date 2022-04-15 wins, so the
reconciled date is 2022-04-15, yet the merged set still carries the
main's `DateTimeOriginal` value 2022-05-01 — a date-bearing key in the
final set differing from the chosen date. -/
theorem claim_c7_counterexample :
    get_exif_date (some (merge_exif_data (some cexMainC7) (some cexOverlayC5))) =
      some (dtKey 2022 4 15 0 0 0) ∧
    (merge_exif_data (some cexMainC7) (some cexOverlayC5)).exif tagDateTimeOriginal =
      some "2022:05:01 00:00:00" ∧
    strptimeColonFmt "2022:05:01 00:00:00" = some (dtKey 2022 5 1 0 0 0) ∧
    dtKey 2022 5 1 0 0 0 ≠ dtKey 2022 4 15 0 0 0 := by
  decide

/-- C8: stamping is idempotent.  A second run of `update_image_metadata`
either finds the first run's condition false (nothing rewritten), or
rewrites the very same three tag values and timestamps — in both cases
the embedded date tags and the filesystem timestamps are unchanged from
the first application; `update_video_metadata` finds `creation_time`
present after the first run and does nothing. -/
theorem claim_c8_stamp_idempotent (s : ImageState) (t : VideoState) :
    update_image_metadata (update_image_metadata s) = update_image_metadata s ∧
    update_video_metadata (update_video_metadata t) = update_video_metadata t := by
  constructor
  · cases hfd : extract_date_from_filename s.name with
    | none =>
      have h1 : update_image_metadata s = s := by
        simp only [update_image_metadata, hfd]
      rw [h1, h1]
    | some d =>
      by_cases hc : (match get_exif_date (some s.exif) with
          | none => true
          | some ex => decide (d < ex)) = true
      · have h1 : update_image_metadata s =
            ⟨s.name, setExifDates s.exif (fmtColon d), d, d⟩ := by
          simp only [update_image_metadata, hfd]
          rw [if_pos hc]
        rw [h1]
        have hname : (⟨s.name, setExifDates s.exif (fmtColon d), d, d⟩ : ImageState).name =
            s.name := rfl
        simp only [update_image_metadata, hname, hfd]
        by_cases hc2 : (match get_exif_date
            (some (setExifDates s.exif (fmtColon d))) with
          | none => true
          | some ex => decide (d < ex)) = true
        · rw [if_pos hc2]
          show (⟨s.name, setExifDates (setExifDates s.exif (fmtColon d)) (fmtColon d), d, d⟩ :
              ImageState) = _
          rw [setExifDates_idem]
        · rw [if_neg hc2]
      · have h1 : update_image_metadata s = s := by
          simp only [update_image_metadata, hfd]
          rw [if_neg hc]
        rw [h1, h1]
  · cases hfd : extract_date_from_filename t.name with
    | none =>
      have h1 : update_video_metadata t = t := by
        simp only [update_video_metadata, hfd]
      rw [h1, h1]
    | some d =>
      cases hct : t.creation_time with
      | some c =>
        have h1 : update_video_metadata t = t := by
          simp only [update_video_metadata, hfd]
          rw [if_pos (by simp [hct])]
        rw [h1, h1]
      | none =>
        have h1 : update_video_metadata t =
            ⟨t.name, some (fmtDash d), t.streams, d, d⟩ := by
          simp only [update_video_metadata, hfd]
          rw [if_neg (by simp [hct])]
        rw [h1]
        have hname : (⟨t.name, some (fmtDash d), t.streams, d, d⟩ : VideoState).name =
            t.name := rfl
        simp only [update_video_metadata, hname, hfd]
        rw [if_pos (by simp)]

/-- C9: a hashing or metadata failure on one file never aborts the
analysis pass of `remove_duplicates`: the duplicate-group dictionary it
builds is exactly the one built from the successfully analysed files
alone (the failed file is simply absent from its group), every failed
file's path is recorded as an error in order, and every other file is
still processed. -/
theorem claim_c9_failures_isolated (fs : List ProbedFile) :
    (analyzeAll fs).1 = (analyzeAll (fs.filter (fun f => f.result.isSome))).1 ∧
    (analyzeAll fs).2 = (fs.filter (fun f => f.result.isNone)).map (fun f => f.path) := by
  refine ⟨analyze_dict_filter fs [] [], ?_⟩
  have h := analyze_errors fs [] []
  simpa [analyzeAll] using h

/-- C10 (implicit): when the container already holds a `creation_time`
tag, `update_video_metadata` leaves the video file — streams, tags, and
filesystem timestamps — completely unchanged, for every filename,
including one whose date is strictly older than the existing tag. -/
theorem claim_c10_existing_tag_untouched (s : VideoState) (c : String)
    (h : s.creation_time = some c) :
    update_video_metadata s = s := by
  cases hfd : extract_date_from_filename s.name with
  | none => simp only [update_video_metadata, hfd]
  | some d =>
    simp only [update_video_metadata, hfd]
    rw [if_pos (by simp [h])]

def sW10 : VideoState :=
  { name := "2020-01-01_abc.mp4", creation_time := some "2023-05-05 00:00:00",
    streams := 7, atime := 11, mtime := 22 }

theorem claim_c10_witness :
    sW10.creation_time = some "2023-05-05 00:00:00" ∧
    extract_date_from_filename sW10.name = some (dtKey 2020 1 1 0 0 0) ∧
    parseCreationTime "2023-05-05 00:00:00" = some (dtKey 2023 5 5 0 0 0) ∧
    dtKey 2020 1 1 0 0 0 < dtKey 2023 5 5 0 0 0 ∧
    update_video_metadata sW10 = sW10 :=
  ⟨rfl, by decide, by decide, by decide,
   claim_c10_existing_tag_untouched sW10 "2023-05-05 00:00:00" rfl⟩
